import Mathlib

/-!
Verification of the logging shim header `src/lib/fb/include/fb/log.h`
(repository aimicm/litho) against its natural-language specification.

The header as supplied under `src/` contains only the license preamble, the
documentation comments, `#pragma once`, `#include <fb/visibility.h>` and the
opening of an `extern "C"` block guarded by `#ifdef __cplusplus`; no FBLOG
macro body appears in the excerpt, and the linkage block is not closed there.
We embed the preprocessor-visible skeleton of the supplied file faithfully,
and separately model from the spec the parts of the header that the excerpt
does not show (the FBLOG macro family and the closing of the linkage block).
-/

namespace FBLog

/-- A compile configuration: which of the three preprocessor names the header
reacts to are defined in the translation unit (`__cplusplus`, `NDEBUG`,
`FBLOG_NDEBUG`). -/
structure Config where
  cplusplus : Bool
  ndebug : Bool
  fblogNdebug : Bool
deriving DecidableEq

/-- Whether a preprocessor name is defined under a configuration. -/
def Config.isDefined (cfg : Config) (n : String) : Bool :=
  if n = "__cplusplus" then cfg.cplusplus
  else if n = "NDEBUG" then cfg.ndebug
  else if n = "FBLOG_NDEBUG" then cfg.fblogNdebug
  else false

/-- Linkage a declaration receives from the compiler. -/
inductive Linkage
  | c
  | cxx
deriving DecidableEq

/-- A preprocessor-relevant line of a header, as the preprocessor sees it:
`pragmaOnce` is `#pragma once`; `includeHdr` is an `#include`; `ifdefLine`
and `endifLine` delimit a conditional region; `externCOpen` / `externCClose`
are the opening and closing lines of an `extern "C"` block; `defineMac`
is a `#define` of a function-like logging macro; `declSym` is an ordinary
symbol declaration. -/
inductive Line
  | pragmaOnce
  | includeHdr (path : String)
  | ifdefLine (n : String)
  | endifLine
  | externCOpen
  | externCClose
  | defineMac (n : String)
  | declSym (n : String)
deriving DecidableEq

/-- The items a header contributes to the translation unit after
preprocessing. A declaration records the linkage it receives. -/
inductive Emitted
  | includeOf (path : String)
  | externOpen
  | externClose
  | defMac (n : String)
  | decl (n : String) (lk : Linkage)
deriving DecidableEq

/-- State threaded through preprocessing: emitted items, the set of files
whose `#pragma once` has been seen, and the current `extern "C"` nesting
depth of the emitted text. -/
structure PPState where
  output : List Emitted
  onceSeen : List String
  externDepth : Nat
deriving DecidableEq

/-- Initial preprocessing state of a fresh translation unit. -/
def initPP : PPState := ⟨[], [], 0⟩

/-- Linkage given to a declaration: inside an `extern "C"` block, or in a C
translation unit, the symbol gets unmangled C linkage; otherwise C++
linkage. -/
def declLinkage (cfg : Config) (depth : Nat) : Linkage :=
  if cfg.cplusplus then (if 0 < depth then Linkage.c else Linkage.cxx)
  else Linkage.c

/-- One step of preprocessing a line of file `file`. The second component is
the stack of truth values of the enclosing `#ifdef` conditions local to the
file; a line takes effect only when all of them hold. -/
def stepLine (cfg : Config) (file : String) : PPState × List Bool → Line → PPState × List Bool
  | (st, stk), l =>
    let active := stk.all (fun b => b)
    match l with
    | Line.pragmaOnce =>
        (if active then
          (if file ∈ st.onceSeen then st else { st with onceSeen := file :: st.onceSeen })
         else st, stk)
    | Line.includeHdr p =>
        (if active then { st with output := st.output ++ [Emitted.includeOf p] } else st, stk)
    | Line.ifdefLine n => (st, cfg.isDefined n :: stk)
    | Line.endifLine => (st, stk.tail)
    | Line.externCOpen =>
        (if active then
          { st with output := st.output ++ [Emitted.externOpen],
                    externDepth := st.externDepth + 1 }
         else st, stk)
    | Line.externCClose =>
        (if active then
          { st with output := st.output ++ [Emitted.externClose],
                    externDepth := st.externDepth - 1 }
         else st, stk)
    | Line.defineMac n =>
        (if active then { st with output := st.output ++ [Emitted.defMac n] } else st, stk)
    | Line.declSym n =>
        (if active then
          { st with output := st.output ++ [Emitted.decl n (declLinkage cfg st.externDepth)] }
         else st, stk)

/-- Preprocess a list of lines of file `file`. -/
def processLines (cfg : Config) (file : String) (lines : List Line)
    (p : PPState × List Bool) : PPState × List Bool :=
  lines.foldl (stepLine cfg file) p

/-- Include a file into a translation unit: a file already recorded by its
`#pragma once` contributes nothing; otherwise its lines are preprocessed with
a fresh local conditional stack. -/
def includeFile (cfg : Config) (file : String) (lines : List Line) (st : PPState) : PPState :=
  if file ∈ st.onceSeen then st
  else (processLines cfg file lines (st, [])).1

/-- The preprocessor-visible lines of `src/lib/fb/include/fb/log.h` exactly
as supplied (lines 42 to 48 of the file): `#pragma once`, the include of
`fb/visibility.h`, then `extern "C"` opened under `#ifdef __cplusplus`.
No macro definition and no closing brace appear in the supplied file. -/
def logHeaderLines : List Line :=
  [Line.pragmaOnce,
   Line.includeHdr "fb/visibility.h",
   Line.ifdefLine "__cplusplus",
   Line.externCOpen,
   Line.endifLine]

/-- Modelled from the spec: the full header whose macro bodies and closing of
the `extern "C"` block are absent from the supplied excerpt. Per the spec,
the FBLOG macro family is defined inside the linkage block and the block is
closed before the end of the file; `sym` stands for an arbitrary non-macro
symbol declared inside the block (the spec conditions its linkage statement
on such symbols being added). -/
def fullLogHeaderLinesWith (sym : String) : List Line :=
  [Line.pragmaOnce,
   Line.includeHdr "fb/visibility.h",
   Line.ifdefLine "__cplusplus",
   Line.externCOpen,
   Line.endifLine,
   Line.defineMac "FBLOGV",
   Line.defineMac "FBLOGD",
   Line.defineMac "FBLOGI",
   Line.defineMac "FBLOGW",
   Line.defineMac "FBLOGE",
   Line.defineMac "FBLOGF",
   Line.declSym sym,
   Line.ifdefLine "__cplusplus",
   Line.externCClose,
   Line.endifLine]

/-- Is the emitted item a macro definition? -/
def Emitted.isDefMac : Emitted → Bool
  | Emitted.defMac _ => true
  | _ => false

/-- Is the emitted item the opening line of an `extern "C"` block? -/
def Emitted.isExternOpen : Emitted → Bool
  | Emitted.externOpen => true
  | _ => false

/-- Is the emitted item the closing line of an `extern "C"` block? -/
def Emitted.isExternClose : Emitted → Bool
  | Emitted.externClose => true
  | _ => false

/-- Every declaration among the emitted items carries unmangled C linkage
(items that are not declarations are ignored). -/
def Emitted.hasCLinkageDecl : Emitted → Bool
  | Emitted.decl _ Linkage.c => true
  | Emitted.decl _ Linkage.cxx => false
  | _ => true

/-- The Android logging severity levels mirrored by the FBLOG family. -/
inductive LogLevel
  | verbose
  | debug
  | info
  | warn
  | error
  | fatal
deriving DecidableEq

/-- A variadic argument of a logging invocation: the value it would produce
and the side effects its evaluation would perform. -/
structure Arg where
  value : String
  effects : List String
deriving DecidableEq

/-- What a logging macro invocation expands to: nothing at all, or a call
into the underlying native logging primitive with a severity level, a tag, a
format string and the argument expressions. -/
inductive Expansion
  | noop
  | callPrim (lvl : LogLevel) (tag : String) (fmt : String) (args : List Arg)
deriving DecidableEq

/-- Whether verbose logging is compiled out: `NDEBUG` is defined and the
override `FBLOG_NDEBUG` is not. -/
def stripVerbose (cfg : Config) : Bool := cfg.ndebug && !cfg.fblogNdebug

/-- Modelled from the spec: the FBLOG macro bodies are absent from the
supplied excerpt; per the spec each macro forwards tag, format string and
variadic arguments unchanged to the native primitive at its severity level,
except that the verbose macro expands to nothing when `NDEBUG` is defined and
`FBLOG_NDEBUG` is not defined. -/
def fblogExpand (cfg : Config) (lvl : LogLevel) (tag fmt : String) (args : List Arg) : Expansion :=
  if lvl = LogLevel.verbose ∧ stripVerbose cfg = true then Expansion.noop
  else Expansion.callPrim lvl tag fmt args

/-- Modelled from the spec: the verbose macro `FBLOGV`. -/
def FBLOGV (cfg : Config) (tag fmt : String) (args : List Arg) : Expansion :=
  fblogExpand cfg LogLevel.verbose tag fmt args

/-- Modelled from the spec: the debug macro `FBLOGD`. -/
def FBLOGD (cfg : Config) (tag fmt : String) (args : List Arg) : Expansion :=
  fblogExpand cfg LogLevel.debug tag fmt args

/-- Modelled from the spec: the info macro `FBLOGI`. -/
def FBLOGI (cfg : Config) (tag fmt : String) (args : List Arg) : Expansion :=
  fblogExpand cfg LogLevel.info tag fmt args

/-- Modelled from the spec: the warning macro `FBLOGW`. -/
def FBLOGW (cfg : Config) (tag fmt : String) (args : List Arg) : Expansion :=
  fblogExpand cfg LogLevel.warn tag fmt args

/-- Modelled from the spec: the error macro `FBLOGE`. -/
def FBLOGE (cfg : Config) (tag fmt : String) (args : List Arg) : Expansion :=
  fblogExpand cfg LogLevel.error tag fmt args

/-- Modelled from the spec: the fatal macro `FBLOGF`. -/
def FBLOGF (cfg : Config) (tag fmt : String) (args : List Arg) : Expansion :=
  fblogExpand cfg LogLevel.fatal tag fmt args

/-- Follows the spec's words: the corresponding Android logging macro that
each FBLOG name renames; it forwards the tag, the severity level and the
format string plus arguments unchanged to the native call, with the same
compile-time verbose-stripping toggle, performing no validation or
transformation of its own. Stated separately from `fblogExpand` so the
renaming claim can compare the two. -/
def androidLogMac (cfg : Config) (lvl : LogLevel) (tag fmt : String) (args : List Arg) : Expansion :=
  if lvl = LogLevel.verbose ∧ stripVerbose cfg = true then Expansion.noop
  else Expansion.callPrim lvl tag fmt args

/-- A record written to the shared log sink by the native primitive. -/
structure LogRecord where
  lvl : LogLevel
  tag : String
  fmt : String
  argVals : List String
deriving DecidableEq

/-- The observable world of a run: side effects performed by evaluating
argument expressions, and the records written to the log sink. -/
structure World where
  effects : List String
  logRecords : List LogRecord
deriving DecidableEq

/-- Evaluate a list of argument expressions left to right, performing their
side effects and collecting their values. -/
def evalArgs : List Arg → World → World × List String
  | [], w => (w, [])
  | a :: rest, w =>
      let w1 : World := { w with effects := w.effects ++ a.effects }
      let p := evalArgs rest w1
      (p.1, a.value :: p.2)

/-- The underlying native logging primitive: it appends a record to the
shared log sink and returns a status of its own (`status` is whatever
outcome the platform reports; its contract, not the shim's, governs it). -/
def nativeLogPrint (status : Int) (lvl : LogLevel) (tag fmt : String)
    (vals : List String) (w : World) : World × Int :=
  ({ w with logRecords := w.logRecords ++ [⟨lvl, tag, fmt, vals⟩] }, status)

/-- Run an expansion: a no-op changes nothing; a call evaluates the argument
expressions and invokes the native primitive, discarding the status the
primitive returns (the expansion yields no error indication). -/
def runExpansion (status : Int) (e : Expansion) (w : World) : World :=
  match e with
  | Expansion.noop => w
  | Expansion.callPrim lvl tag fmt args =>
      let p := evalArgs args w
      (nativeLogPrint status lvl tag fmt p.2 p.1).1

/-- A sample configuration for witnesses: C++, `NDEBUG` defined,
`FBLOG_NDEBUG` not defined. -/
def cfgRelease : Config := ⟨true, true, false⟩

/-- A sample configuration for witnesses: C++, `NDEBUG` defined and
`FBLOG_NDEBUG` also defined. -/
def cfgForced : Config := ⟨true, true, true⟩

/-- A sample argument with a visible side effect, for witnesses. -/
def argBoom : Arg := ⟨"42", ["boom"]⟩

/-- An empty world, for witnesses. -/
def world0 : World := ⟨[], []⟩

/-- Claim C1: when `NDEBUG` is defined and `FBLOG_NDEBUG` is not defined,
every `FBLOGV` invocation expands to a no-op: no call into the native
logging primitive is emitted, and running the expansion changes nothing —
none of the arguments is evaluated, none of their side effects occurs. -/
theorem fblogv_stripped_noop (cfg : Config) (tag fmt : String) (args : List Arg)
    (w : World) (s : Int) (h1 : cfg.ndebug = true) (h2 : cfg.fblogNdebug = false) :
    FBLOGV cfg tag fmt args = Expansion.noop ∧
      runExpansion s (FBLOGV cfg tag fmt args) w = w := by
  have hs : stripVerbose cfg = true := by simp [stripVerbose, h1, h2]
  constructor
  · simp [FBLOGV, fblogExpand, hs]
  · simp [FBLOGV, fblogExpand, hs, runExpansion]

/-- Witness for C1 at a concrete release configuration, with an argument
carrying a side effect. -/
theorem fblogv_stripped_noop_witness :
    cfgRelease.ndebug = true ∧ cfgRelease.fblogNdebug = false ∧
      (FBLOGV cfgRelease "MyTag" "x=%d" [argBoom] = Expansion.noop ∧
        runExpansion 0 (FBLOGV cfgRelease "MyTag" "x=%d" [argBoom]) world0 = world0) :=
  ⟨rfl, rfl, fblogv_stripped_noop cfgRelease "MyTag" "x=%d" [argBoom] world0 0 rfl rfl⟩

/-- Claim C2: when `FBLOG_NDEBUG` is defined — whatever `NDEBUG` is — every
`FBLOGV` invocation expands to a real call into the underlying native
logging primitive, at verbose level with the tag, format and arguments
forwarded. -/
theorem fblogv_forced_on (cfg : Config) (tag fmt : String) (args : List Arg)
    (h : cfg.fblogNdebug = true) :
    FBLOGV cfg tag fmt args = Expansion.callPrim LogLevel.verbose tag fmt args := by
  simp [FBLOGV, fblogExpand, stripVerbose, h]

/-- Witness for C2 at a concrete configuration with both `NDEBUG` and
`FBLOG_NDEBUG` defined. -/
theorem fblogv_forced_on_witness :
    cfgForced.fblogNdebug = true ∧
      FBLOGV cfgForced "MyTag" "x=%d" [argBoom] =
        Expansion.callPrim LogLevel.verbose "MyTag" "x=%d" [argBoom] :=
  ⟨rfl, fblogv_forced_on cfgForced "MyTag" "x=%d" [argBoom] rfl⟩

/-- Claim C3: every severity macro other than verbose — `FBLOGD`, `FBLOGI`,
`FBLOGW`, `FBLOGE`, `FBLOGF` — expands to a call into the underlying native
primitive at its severity level, in every configuration, whether or not
`NDEBUG` is defined. -/
theorem fblog_nonverbose_always_calls :
    ∀ (cfg : Config) (tag fmt : String) (args : List Arg),
      FBLOGD cfg tag fmt args = Expansion.callPrim LogLevel.debug tag fmt args ∧
      FBLOGI cfg tag fmt args = Expansion.callPrim LogLevel.info tag fmt args ∧
      FBLOGW cfg tag fmt args = Expansion.callPrim LogLevel.warn tag fmt args ∧
      FBLOGE cfg tag fmt args = Expansion.callPrim LogLevel.error tag fmt args ∧
      FBLOGF cfg tag fmt args = Expansion.callPrim LogLevel.fatal tag fmt args := by
  intro cfg tag fmt args
  refine ⟨?_, ?_, ?_, ?_, ?_⟩ <;> simp [FBLOGD, FBLOGI, FBLOGW, FBLOGE, FBLOGF, fblogExpand]

/-- Claim C4: every macro of the family is semantically equal to the
corresponding Android logging macro it renames, and whenever it expands to a
call it forwards the severity level, the tag, the format string and the
variadic arguments unchanged, performing no transformation of its own. -/
theorem fblog_refines_android :
    ∀ (cfg : Config) (lvl : LogLevel) (tag fmt : String) (args : List Arg),
      fblogExpand cfg lvl tag fmt args = androidLogMac cfg lvl tag fmt args ∧
        (fblogExpand cfg lvl tag fmt args = Expansion.noop ∨
          fblogExpand cfg lvl tag fmt args = Expansion.callPrim lvl tag fmt args) := by
  intro cfg lvl tag fmt args
  refine ⟨rfl, ?_⟩
  by_cases h : lvl = LogLevel.verbose ∧ stripVerbose cfg = true
  · exact Or.inl (by simp [fblogExpand, h])
  · exact Or.inr (by simp [fblogExpand, h])

/-- Claim C5: preprocessing the supplied header file, in every
configuration, defines no macro at all (in particular no FBLOG macro), and
in the C++ case it opens exactly one `extern "C"` block and never closes it
within the file. -/
theorem supplied_header_truncated :
    ∀ cfg : Config,
      ((processLines cfg "fb/log.h" logHeaderLines (initPP, [])).1.output.all
          (fun e => ! e.isDefMac) = true) ∧
      (processLines cfg "fb/log.h" logHeaderLines (initPP, [])).1.output.countP
          Emitted.isExternOpen = (if cfg.cplusplus then 1 else 0) ∧
      (processLines cfg "fb/log.h" logHeaderLines (initPP, [])).1.output.countP
          Emitted.isExternClose = 0 := by
  intro cfg
  obtain ⟨c, n, f⟩ := cfg
  cases c <;> cases n <;> cases f <;> decide

/-- Claim C6 (on the full header modelled from the spec): in every
configuration and for any symbol declared inside the linkage block, the
conditional stack is balanced at end of file, the `extern "C"` block is
opened and closed exactly once in C++ mode and does not appear at all in C
mode — so the header compiles cleanly from both C and C++ translation
units — and every declared symbol receives unmangled C linkage. -/
theorem full_header_both_modes_c_linkage :
    ∀ (cfg : Config) (sym : String),
      (processLines cfg "fb/log.h" (fullLogHeaderLinesWith sym) (initPP, [])).2 = [] ∧
      (processLines cfg "fb/log.h" (fullLogHeaderLinesWith sym) (initPP, [])).1.externDepth = 0 ∧
      (processLines cfg "fb/log.h" (fullLogHeaderLinesWith sym) (initPP, [])).1.output.countP
          Emitted.isExternOpen = (if cfg.cplusplus then 1 else 0) ∧
      (processLines cfg "fb/log.h" (fullLogHeaderLinesWith sym) (initPP, [])).1.output.countP
          Emitted.isExternClose = (if cfg.cplusplus then 1 else 0) ∧
      (processLines cfg "fb/log.h" (fullLogHeaderLinesWith sym) (initPP, [])).1.output.all
          Emitted.hasCLinkageDecl = true := by
  intro cfg sym
  obtain ⟨c, n, f⟩ := cfg
  cases c <;> cases n <;> cases f <;>
    simp [processLines, fullLogHeaderLinesWith, stepLine, initPP, Config.isDefined,
      declLinkage, List.countP, List.countP.go, Emitted.isExternOpen, Emitted.isExternClose,
      Emitted.hasCLinkageDecl, Emitted.isDefMac]

/-- Claim C7: the shim surfaces no error: running any FBLOG expansion yields
the same world whatever status the underlying native primitive reports, and
returns no error indication of its own — the primitive's failure or success
is neither observed nor propagated. -/
theorem fblog_run_ignores_status :
    ∀ (cfg : Config) (lvl : LogLevel) (tag fmt : String) (args : List Arg)
      (w : World) (s1 s2 : Int),
      runExpansion s1 (fblogExpand cfg lvl tag fmt args) w =
        runExpansion s2 (fblogExpand cfg lvl tag fmt args) w := by
  intro cfg lvl tag fmt args w s1 s2
  cases h : fblogExpand cfg lvl tag fmt args <;>
    simp [runExpansion, nativeLogPrint]

/-- Claim C9: in every configuration, the first item the header contributes
to the translation unit is the include of `fb/visibility.h`, before any
declaration of its own. -/
theorem visibility_included_first :
    ∀ cfg : Config,
      (processLines cfg "fb/log.h" logHeaderLines (initPP, [])).1.output.head? =
        some (Emitted.includeOf "fb/visibility.h") := by
  intro cfg
  obtain ⟨c, n, f⟩ := cfg
  cases c <;> cases n <;> cases f <;> decide

/-- Claim C10: including the header twice into the same translation unit is
the same as including it once: the `#pragma once` guard makes repeated
inclusion idempotent, so nothing is redefined or redeclared. -/
theorem include_log_header_idempotent :
    ∀ (cfg : Config) (st : PPState),
      includeFile cfg "fb/log.h" logHeaderLines
          (includeFile cfg "fb/log.h" logHeaderLines st) =
        includeFile cfg "fb/log.h" logHeaderLines st := by
  intro cfg st
  by_cases h : "fb/log.h" ∈ st.onceSeen
  · simp [includeFile, h]
  · have hmem : "fb/log.h" ∈
        (processLines cfg "fb/log.h" logHeaderLines (st, [])).1.onceSeen := by
      obtain ⟨c, n, f⟩ := cfg
      cases c <;> cases n <;> cases f <;>
        simp [processLines, logHeaderLines, stepLine, Config.isDefined, h]
    simp [includeFile, h, hmem]

end FBLog
